import Mathlib

/-!
Shallow embedding of the client-side view-state, filtering, rendering,
insights and export logic of `src/static/app.js` (Cashbook+).

Modelling conventions:

* JS strings are Lean `String`s.  `String.prototype.trim` is modelled over
  the ECMAScript whitespace/line-terminator code points listed in
  `isJSWhitespace`; `String.prototype.toLowerCase` is modelled on the ASCII
  letters A-Z (`jsToLower`), exact for the ASCII data of this application.
* Entry amounts are modelled as `Nat` (the data model guarantees
  non-negative amounts); the summary balance is an `Int`.
* `new Date("YYYY-MM-DD")` is modelled by `dateValue`, mapping an ISO date
  string to its civil day number (strictly monotone in the calendar date,
  so order comparisons agree with JS timestamp comparisons); the current
  instant used by the insights code is a day-number parameter `now`, and
  `setDate(getDate() - 7)` becomes subtraction of 7 on that scale.
* Arrays are Lean lists.  The copying constructs of the source
  (`[...state.allEntries]`, `entries.slice()`) are modelled explicitly:
  `sliceSortDesc` returns both the array as the caller sees it after the
  call and the sorted copy, so non-mutation of `state.allEntries` is a
  provable statement about the embedding of `slice`/spread, not an
  artifact.  `Array.prototype.sort` (stable, comparator
  `(a, b) => new Date(b.date) - new Date(a.date)`) is the stable insertion
  sort `sortByDateDesc`.
* DOM and document output is modelled as plain data: `RenderResult` for the
  transaction table (rows, empty-state placeholder, entry-count label,
  insight list), and `PdfExport` / `ExcelExport` for the export adapters.
  Insight messages are modelled by the inductive `Insight`, carrying the
  numeric and textual payloads that the source interpolates into the
  message strings (currency formatting is presentation only).
* The note accumulator of `updateInsights` (a JS object used as a map) is
  an insertion-ordered association list; JS object key ordering differs
  only for integer-like keys, which none of the statements below depend on.
-/

/-- Whitespace test used to model `String.prototype.trim`
(space, tab, LF, VT, FF, CR, NBSP, LS, PS, BOM). -/
def isJSWhitespace (c : Char) : Bool :=
  c.toNat == 32 || c.toNat == 9 || c.toNat == 10 || c.toNat == 13 || c.toNat == 11 ||
  c.toNat == 12 || c.toNat == 160 || c.toNat == 8232 || c.toNat == 8233 || c.toNat == 65279

/-- ASCII model of `String.prototype.toLowerCase` on a single code point. -/
def jsToLower (c : Char) : Char :=
  if 65 ≤ c.toNat ∧ c.toNat ≤ 90 then Char.ofNat (c.toNat + 32) else c

/-- Model of `String.prototype.trim` on the character list of a string. -/
def trimChars (l : List Char) : List Char :=
  (l.dropWhile isJSWhitespace).rdropWhile isJSWhitespace

/-- Model of `String.prototype.toLowerCase`. -/
def lowerStr (s : String) : String := ⟨s.data.map jsToLower⟩

/-- Model of `String.prototype.trim`. -/
def trimStr (s : String) : String := ⟨trimChars s.data⟩

/-- Model of `str.trim().toLowerCase()` as used in `applyFilters` (line 108)
and for note keys in `updateInsights` (line 211). -/
def trimLower (s : String) : String := lowerStr (trimStr s)

/-- Contiguous substring test on character lists. -/
def charsContain (needle : List Char) : List Char → Bool
  | [] => needle.isEmpty
  | c :: rest => needle.isPrefixOf (c :: rest) || charsContain needle rest

/-- Model of `hay.includes(needle)`. -/
def strIncludes (hay needle : String) : Bool := charsContain needle.data hay.data

/-- Cumulative day counts before each month in a non-leap year. -/
def monthsBeforeDays : Nat → Nat
  | 1 => 0 | 2 => 31 | 3 => 59 | 4 => 90 | 5 => 120 | 6 => 151
  | 7 => 181 | 8 => 212 | 9 => 243 | 10 => 273 | 11 => 304 | 12 => 334
  | _ => 0

/-- Gregorian leap-year rule. -/
def isLeapYear (y : Nat) : Bool := y % 4 == 0 && (y % 100 != 0 || y % 400 == 0)

/-- Civil day number of a Gregorian date (days since 0001-01-01). -/
def daysFromCivil (y m d : Nat) : Nat :=
  365 * (y - 1) + (y - 1) / 4 - (y - 1) / 100 + (y - 1) / 400 +
    monthsBeforeDays m + (if isLeapYear y && m > 2 then 1 else 0) + (d - 1)

/-- Splits a character list at a separator character. -/
def splitOnChar (sep : Char) : List Char → List (List Char)
  | [] => [[]]
  | c :: rest =>
    let parts := splitOnChar sep rest
    if c == sep then [] :: parts
    else
      match parts with
      | [] => [[c]]
      | h :: t => (c :: h) :: t

/-- Decimal digit-string parser. -/
def parseNatDigits (l : List Char) : Nat := l.foldl (fun a c => a * 10 + (c.toNat - 48)) 0

/-- Day-number model of `new Date(s)` for ISO `YYYY-MM-DD` strings
(monotone-equivalent with JS timestamps for the comparisons in the source). -/
def dateValue (s : String) : Nat :=
  match splitOnChar '-' s.data with
  | [ys, ms, ds] => daysFromCivil (parseNatDigits ys) (parseNatDigits ms) (parseNatDigits ds)
  | _ => 0

/-- Entry kinds: the `type` field of an entry (`"cash_in"` / `"cash_out"`). -/
inductive EntryType where
  | cash_in
  | cash_out
  deriving DecidableEq

/-- An entry as held in `state.allEntries`; a missing or null note is
modelled as the empty string (the source coerces with `entry.note || ""`). -/
structure Entry where
  id : Nat
  date : String
  type : EntryType
  amount : Nat
  note : String
  deriving DecidableEq

/-- The `state.summary` record. -/
structure Summary where
  total_in : Nat
  total_out : Nat
  balance : Int
  deriving DecidableEq

/-- The process-wide `state` object of `app.js` (lines 1-6). -/
structure ViewState where
  username : String
  activeCashbook : String
  allEntries : List Entry
  summary : Summary
  deriving DecidableEq

/-- Keyword predicate of `applyFilters` (lines 112-117):
`String(entry.note || "").toLowerCase().includes(keyword) ||
 String(entry.amount).includes(keyword)`. -/
def entryMatchesKeyword (keyword : String) (e : Entry) : Bool :=
  strIncludes (lowerStr e.note) keyword || strIncludes (toString e.amount) keyword

/-- Body of `applyFilters` after the keyword has been normalised:
the keyword filter is applied when the keyword is non-empty (JS truthiness),
then the date filter when the date string is non-empty. -/
def filteredByKey (entries : List Entry) (keyword dateFilter : String) : List Entry :=
  let step1 := if keyword = "" then entries else entries.filter (entryMatchesKeyword keyword)
  if dateFilter = "" then step1 else step1.filter (fun e => e.date == dateFilter)

/-- The filter engine of `applyFilters` (lines 105-122): the raw keyword is
trimmed and lowercased (line 108), the copied entry list is filtered. -/
def filteredEntries (entries : List Entry) (kwRaw dateFilter : String) : List Entry :=
  filteredByKey entries (trimLower kwRaw) dateFilter

/-- Stable insertion step for the descending-by-date sort. -/
def insertByDateDesc (e : Entry) : List Entry → List Entry
  | [] => [e]
  | x :: xs => if dateValue x.date ≤ dateValue e.date then e :: x :: xs else x :: insertByDateDesc e xs

/-- Stable sort descending by date: model of
`.sort((a, b) => new Date(b.date) - new Date(a.date))`. -/
def sortByDateDesc : List Entry → List Entry
  | [] => []
  | x :: xs => insertByDateDesc x (sortByDateDesc xs)

/-- Model of `arr.slice().sort(byDateDesc)`: `slice` copies and `sort`
mutates only the copy.  First component: the array as the caller sees it
after the call; second: the sorted copy. -/
def sliceSortDesc (arr : List Entry) : List Entry × List Entry := (arr, sortByDateDesc arr)

/-- One rendered table row (lines 146-157). -/
structure Row where
  date : String
  typeLabel : String
  amount : Nat
  noteCell : String
  deleteId : Nat
  deriving DecidableEq

/-- Row built from an entry (lines 148-156). -/
def entryRow (e : Entry) : Row :=
  ⟨e.date, if e.type = EntryType.cash_in then "Cash In" else "Cash Out",
   e.amount, if e.note = "" then "—" else e.note, e.id⟩

/-- The entry-count label with pluralisation (line 159). -/
def countLabel (n : Nat) : String :=
  toString n ++ " " ++ (if n = 1 then "entry" else "entries")

/-- Insight messages of `updateInsights`, by payload.  `trendChange` carries
the signed week-over-week difference and the previous-week spend, which
determine the rendered direction and percentage; `topNote` carries the note
key and summed amount interpolated at line 218. -/
inductive Insight where
  | spendingTotal (amount : Nat)
  | inflow (amount : Nat)
  | trendChange (diff : Int) (prevWeek : Nat)
  | newSpending
  | topNote (note : String) (amount : Nat)
  | negativeBalance
  | steady
  | keepLogging
  deriving DecidableEq

/-- Sum of amounts of entries of one type (lines 174-175). -/
def totalByType (t : EntryType) (entries : List Entry) : Nat :=
  ((entries.filter (fun e => e.type == t)).map (fun e => e.amount)).sum

/-- Cash-out sum over the trailing 7 days (lines 183-185). -/
def spendLastWeek (entries : List Entry) (now : Int) : Nat :=
  ((entries.filter (fun e =>
      e.type == EntryType.cash_out && decide ((dateValue e.date : Int) ≥ now - 7))).map
    (fun e => e.amount)).sum

/-- Cash-out sum over days 8-14 back (lines 186-188). -/
def spendPrevWeek (entries : List Entry) (now : Int) : Nat :=
  ((entries.filter (fun e =>
      e.type == EntryType.cash_out && decide ((dateValue e.date : Int) < now - 7) &&
        decide ((dateValue e.date : Int) ≥ now - 14))).map
    (fun e => e.amount)).sum

/-- One accumulation step of the note map (`acc[key] = (acc[key] || 0) + amount`). -/
def bump : List (String × Nat) → String → Nat → List (String × Nat)
  | [], key, amt => [(key, amt)]
  | (k, v) :: rest, key, amt =>
    if k = key then (k, v + amt) :: rest else (k, v) :: bump rest key amt

/-- The `topNotes` accumulator of `updateInsights` (lines 208-214): cash-out
entries with a truthy note, grouped by the trimmed lowercased note key. -/
def topNotes (entries : List Entry) : List (String × Nat) :=
  (entries.filter (fun e => e.type == EntryType.cash_out && e.note != "")).foldl
    (fun acc e => bump acc (trimLower e.note) e.amount) []

/-- Stable insertion step for the descending-by-sum sort of note totals. -/
def insertBySndDesc (p : String × Nat) : List (String × Nat) → List (String × Nat)
  | [] => [p]
  | q :: qs => if q.2 ≤ p.2 then p :: q :: qs else q :: insertBySndDesc p qs

/-- Model of `Object.entries(topNotes).sort((a, b) => b[1] - a[1])` (line 215). -/
def sortBySndDesc : List (String × Nat) → List (String × Nat)
  | [] => []
  | q :: qs => insertBySndDesc q (sortBySndDesc qs)

/-- The top-spending-note rule (lines 215-219). -/
def topNoteInsight (entries : List Entry) : List Insight :=
  match sortBySndDesc (topNotes entries) with
  | [] => []
  | (n, a) :: _ => [Insight.topNote n a]

/-- The week-over-week trend rule (lines 197-206).  The source condition
`Math.abs((diff / prev) * 100) >= 10` is the exact integer condition
`prev <= 10 * |diff|` since `prev > 0`. -/
def trendInsight (entries : List Entry) (now : Int) : List Insight :=
  if 0 < spendPrevWeek entries now then
    (if spendPrevWeek entries now ≤
        ((spendLastWeek entries now : Int) - (spendPrevWeek entries now : Int)).natAbs * 10 then
      [Insight.trendChange ((spendLastWeek entries now : Int) - (spendPrevWeek entries now : Int))
        (spendPrevWeek entries now)]
    else [])
  else if 0 < spendLastWeek entries now then [Insight.newSpending] else []

/-- The `insights` array built by rules 1-5 of `updateInsights`
(lines 190-223), in source push order. -/
def insightsBase (entries : List Entry) (balance : Int) (now : Int) : List Insight :=
  (if 0 < totalByType EntryType.cash_out entries
    then [Insight.spendingTotal (totalByType EntryType.cash_out entries)] else []) ++
  (if 0 < totalByType EntryType.cash_in entries
    then [Insight.inflow (totalByType EntryType.cash_in entries)] else []) ++
  trendInsight entries now ++
  topNoteInsight entries ++
  (if balance < 0 then [Insight.negativeBalance] else [])

/-- The insights generator `updateInsights` (lines 163-234), as the list of
insight messages appended to the insights element: the empty-entry early
return, then the rule list, with the steady-flow fallback when no rule
fired. -/
def updateInsights (entries : List Entry) (balance : Int) (now : Int) : List Insight :=
  if entries.isEmpty then [Insight.keepLogging]
  else if (insightsBase entries balance now).isEmpty then [Insight.steady]
  else insightsBase entries balance now

/-- Output of `renderEntries` (lines 125-161): rows of the table body, the
empty-state placeholder flag, the entry-count label, and the insight list
passed to `updateInsights`. -/
structure RenderResult where
  rows : List Row
  emptyState : Bool
  countText : String
  insights : List Insight
  deriving DecidableEq

/-- The renderer `renderEntries`: on an empty list it renders the
placeholder row and calls `updateInsights([])`; otherwise it sorts a
`slice()` copy descending by date, renders rows, and calls `updateInsights`
with the (unsorted) argument list. -/
def renderEntries (entries : List Entry) (balance : Int) (now : Int) : RenderResult :=
  if entries.length = 0 then
    ⟨[], true, "0 entries", updateInsights [] balance now⟩
  else
    ⟨((sliceSortDesc entries).2).map entryRow, false, countLabel entries.length,
     updateInsights entries balance now⟩

/-- The `applyFilters` handler (lines 105-123): reads `state.allEntries`
into a spread copy, filters it, and hands the result to `renderEntries`.
It writes no field of `state`; the state component records that. -/
def applyFilters (s : ViewState) (kwRaw dateRaw : String) (now : Int) : ViewState × RenderResult :=
  (s, renderEntries (filteredEntries s.allEntries kwRaw dateRaw) s.summary.balance now)

/-- The call `renderEntries(state.allEntries)` (line 252) viewed as an
operation on the state: the sort acts on a `slice()` copy, and the array
the caller retains afterwards is the first component of `sliceSortDesc`. -/
def renderEntriesOp (s : ViewState) (now : Int) : ViewState × RenderResult :=
  ({ s with allEntries := (sliceSortDesc s.allEntries).1 },
   renderEntries s.allEntries s.summary.balance now)

/-- The active-cashbook resolution of `loadCashbooks` (lines 272-281):
take the URL cashbook when truthy and present in the list; otherwise take
the first cashbook when the list is non-empty and no active cashbook is
set; otherwise clear when the list is empty; otherwise leave the current
active cashbook unchanged. -/
def resolveActiveCashbook (cashbooks : List String) (urlCashbook : String) (current : String) :
    String :=
  if urlCashbook ≠ "" ∧ urlCashbook ∈ cashbooks then urlCashbook
  else if 0 < cashbooks.length ∧ current = "" then cashbooks.headD ""
  else if cashbooks.length = 0 then ""
  else current

/-- Modelled from the spec (for comparison with the source resolver):
"URL-specified cashbook if it exists in the returned list, else the
currently-set active cashbook if still valid, else the first cashbook in
the list, else none." -/
def specResolveActiveCashbook (cashbooks : List String) (urlCashbook : String) (current : String) :
    String :=
  if urlCashbook ≠ "" ∧ urlCashbook ∈ cashbooks then urlCashbook
  else if current ≠ "" ∧ current ∈ cashbooks then current
  else cashbooks.headD ""

/-- One table/sheet row of the export adapters (lines 427-436, 466-475). -/
structure ExportRow where
  index : Nat
  date : String
  typeLabel : String
  amount : Nat
  noteCell : String
  deriving DecidableEq

/-- Export row built from an entry and its position (after sorting). -/
def exportRow (i : Nat) (e : Entry) : ExportRow :=
  ⟨i + 1, e.date, if e.type = EntryType.cash_in then "Cash In" else "Cash Out",
   e.amount, if e.note = "" then "-" else e.note⟩

/-- Indexed export rows. -/
def exportRows (l : List Entry) : List ExportRow :=
  l.mapIdx exportRow

/-- Result of the PDF adapter: either the zero-entry notice toast, or a
built document (title/cashbook/date headers are presentation; the payload is
the row table and the computed totals of lines 438-440). -/
inductive PdfExport where
  | notice (message : String)
  | doc (cashbook : String) (rows : List ExportRow) (totalIn totalOut : Nat) (balance : Int)
  deriving DecidableEq

/-- The PDF export adapter `exportPDFOnly` (lines 414-460): reads
`state.allEntries`, returns the notice without building a document when the
list is empty, else sorts a `slice()` copy and builds the document. -/
def exportPDFOnly (s : ViewState) (cashbook : String) : ViewState × PdfExport :=
  if s.allEntries.length = 0 then (s, PdfExport.notice "No data to export.")
  else
    ({ s with allEntries := (sliceSortDesc s.allEntries).1 },
     PdfExport.doc cashbook (exportRows (sliceSortDesc s.allEntries).2)
       (totalByType EntryType.cash_in s.allEntries)
       (totalByType EntryType.cash_out s.allEntries)
       ((totalByType EntryType.cash_in s.allEntries : Int) -
        (totalByType EntryType.cash_out s.allEntries : Int)))

/-- Rendering of `amount.toFixed(2)` for whole amounts. -/
def fixed2 (n : Nat) : String := toString n ++ ".00"

/-- Rendering of `balance.toFixed(2)` for whole (possibly negative) values. -/
def fixed2Int (i : Int) : String := (if i < 0 then "-" else "") ++ toString i.natAbs ++ ".00"

/-- String cells of one spreadsheet entry row. -/
def excelEntryRow (r : ExportRow) : List String :=
  [toString r.index, r.date, r.typeLabel, fixed2 r.amount, r.noteCell]

/-- Result of the spreadsheet adapter: the zero-entry notice, or the 2-D
cell grid handed to the sheet builder. -/
inductive ExcelExport where
  | notice (message : String)
  | sheet (cells : List (List String))
  deriving DecidableEq

/-- The spreadsheet export adapter `exportExcelOnly` (lines 462-496):
zero-entry guard, else header row, sorted entry rows, a blank separator
row, then the three totals rows (lines 481-488). -/
def exportExcelOnly (s : ViewState) (cashbook : String) : ViewState × ExcelExport :=
  if s.allEntries.length = 0 then (s, ExcelExport.notice "No data to export.")
  else
    ({ s with allEntries := (sliceSortDesc s.allEntries).1 },
     ExcelExport.sheet
       ([["#", "Date", "Type", "Amount", "Note"]] ++
        (exportRows (sliceSortDesc s.allEntries).2).map excelEntryRow ++
        [[]] ++
        [["", "", "Total Cash In", fixed2 (totalByType EntryType.cash_in s.allEntries)],
         ["", "", "Total Cash Out", fixed2 (totalByType EntryType.cash_out s.allEntries)],
         ["", "", "Balance",
          fixed2Int ((totalByType EntryType.cash_in s.allEntries : Int) -
            (totalByType EntryType.cash_out s.allEntries : Int))]]))

/-- The three-entry list of the C7 scenario. -/
def sortDemoEntries : List Entry :=
  [⟨1, "2024-01-01", EntryType.cash_in, 10, "a"⟩,
   ⟨2, "2024-03-01", EntryType.cash_in, 20, "b"⟩,
   ⟨3, "2024-02-01", EntryType.cash_out, 30, "c"⟩]

/-- Claim C4: applying the filter engine with an empty keyword and an empty
date string returns the entry list unchanged, same elements in the same
order. -/
theorem filter_empty_is_identity (entries : List Entry) :
    filteredEntries entries "" "" = entries := rfl

/-- Claim C8: on the empty entry list the insights generator produces
exactly the single fallback "keep logging" message, whatever the summary
balance and the current day are. -/
theorem updateInsights_empty_fallback (balance now : Int) :
    updateInsights [] balance now = [Insight.keepLogging] := rfl

/-- Claim C9: filtering, rendering and both export adapters leave
`state.allEntries` with the same elements in the same order: each
operation works on a spread/`slice()` copy and never writes the stored
list. -/
theorem ops_preserve_allEntries (s : ViewState) (kwRaw dateRaw : String) (now : Int)
    (cb : String) :
    (applyFilters s kwRaw dateRaw now).1.allEntries = s.allEntries ∧
    (renderEntriesOp s now).1.allEntries = s.allEntries ∧
    (exportPDFOnly s cb).1.allEntries = s.allEntries ∧
    (exportExcelOnly s cb).1.allEntries = s.allEntries := by
  refine ⟨rfl, rfl, ?_, ?_⟩
  · unfold exportPDFOnly
    split <;> rfl
  · unfold exportExcelOnly
    split <;> rfl

/-- Claim C6: with an empty loaded entry list, both export adapters return
the "No data to export." notice and build no document. -/
theorem export_empty_guard (s : ViewState) (cb : String) (h : s.allEntries = []) :
    (exportPDFOnly s cb).2 = PdfExport.notice "No data to export." ∧
    (exportExcelOnly s cb).2 = ExcelExport.notice "No data to export." := by
  have hl : s.allEntries.length = 0 := by rw [h]; rfl
  unfold exportPDFOnly exportExcelOnly
  rw [if_pos hl, if_pos hl]
  exact ⟨rfl, rfl⟩

/-- Witness for C6 at a concrete empty view state. -/
theorem export_empty_guard_witness :
    (⟨"u", "Book", [], ⟨0, 0, 0⟩⟩ : ViewState).allEntries = [] ∧
    ((exportPDFOnly ⟨"u", "Book", [], ⟨0, 0, 0⟩⟩ "Book").2 =
        PdfExport.notice "No data to export." ∧
      (exportExcelOnly ⟨"u", "Book", [], ⟨0, 0, 0⟩⟩ "Book").2 =
        ExcelExport.notice "No data to export.") :=
  ⟨rfl, export_empty_guard ⟨"u", "Book", [], ⟨0, 0, 0⟩⟩ "Book" rfl⟩

/-- Claim C1 counterexample: with one cash-out entry and a keyword matching
nothing, the insights rendered after `applyFilters` are the empty-state
fallback, not the insights of the full `state.allEntries` list — the
generator receives the filtered subset, not the full list. -/
theorem insights_not_from_full_list :
    (applyFilters ⟨"u", "Personal", [⟨1, "2024-01-01", EntryType.cash_out, 5, "coffee"⟩],
        ⟨0, 0, 0⟩⟩ "zzz" "" 0).2.insights ≠
      updateInsights
        (⟨"u", "Personal", [⟨1, "2024-01-01", EntryType.cash_out, 5, "coffee"⟩],
          ⟨0, 0, 0⟩⟩ : ViewState).allEntries
        (⟨"u", "Personal", [⟨1, "2024-01-01", EntryType.cash_out, 5, "coffee"⟩],
          ⟨0, 0, 0⟩⟩ : ViewState).summary.balance 0 := by decide

/-- Claim C1 as amended: for every view state and filter setting, the
insight messages produced after `applyFilters` are computed from the
filtered subset passed to the renderer (hence from the full list exactly
when the filters are cleared). -/
theorem insights_follow_filtered_entries (s : ViewState) (kwRaw dateRaw : String) (now : Int) :
    (applyFilters s kwRaw dateRaw now).2.insights =
      updateInsights (filteredEntries s.allEntries kwRaw dateRaw) s.summary.balance now := by
  show (renderEntries (filteredEntries s.allEntries kwRaw dateRaw) s.summary.balance now).insights
      = _
  unfold renderEntries
  split
  · next h => rw [List.length_eq_zero.mp h]
  · rfl

/-- Claim C3 counterexample: with cashbook list ["Personal", "Work"], no
URL parameter, and stale active cashbook "Deleted" (not in the list), the
source resolver keeps "Deleted", while the claimed priority order demands
the first list element "Personal". -/
theorem resolveCashbook_counterexample :
    resolveActiveCashbook ["Personal", "Work"] "" "Deleted" = "Deleted" ∧
    specResolveActiveCashbook ["Personal", "Work"] "" "Deleted" = "Personal" ∧
    resolveActiveCashbook ["Personal", "Work"] "" "Deleted" ≠
      specResolveActiveCashbook ["Personal", "Work"] "" "Deleted" := by decide

/-- Claim C3 as amended: the resolver takes the URL cashbook when non-empty
and in the list; otherwise, when no active cashbook is set, the first list
element; otherwise, when the list is empty, none; otherwise it keeps the
currently-set active cashbook even when it is absent from the list.  In
particular, list ["Personal", "Work"] with URL parameter "Work" resolves
to "Work". -/
theorem resolveCashbook_amended (cashbooks : List String) (url current : String) :
    (url ≠ "" → url ∈ cashbooks → resolveActiveCashbook cashbooks url current = url) ∧
    (¬(url ≠ "" ∧ url ∈ cashbooks) → cashbooks ≠ [] → current = "" →
      resolveActiveCashbook cashbooks url current = cashbooks.headD "") ∧
    (¬(url ≠ "" ∧ url ∈ cashbooks) → cashbooks = [] →
      resolveActiveCashbook cashbooks url current = "") ∧
    (¬(url ≠ "" ∧ url ∈ cashbooks) → cashbooks ≠ [] → current ≠ "" →
      resolveActiveCashbook cashbooks url current = current) ∧
    resolveActiveCashbook ["Personal", "Work"] "Work" current = "Work" := by
  unfold resolveActiveCashbook
  refine ⟨?_, ?_, ?_, ?_, ?_⟩
  · intro h1 h2
    rw [if_pos ⟨h1, h2⟩]
  · intro hn hne hcur
    rw [if_neg hn, if_pos ⟨List.length_pos.mpr hne, hcur⟩]
  · intro hn hnil
    subst hnil
    rw [if_neg hn, if_neg (by simp)]
    rfl
  · intro hn hne hcur
    rw [if_neg hn, if_neg (fun hc => hcur hc.2),
      if_neg (fun hc => hne (List.length_eq_zero.mp hc))]
  · rw [if_pos ⟨by decide, by decide⟩]

/-- Witness for C3 at the concrete scenario of the claim. -/
theorem resolveCashbook_amended_witness :
    ("Work" : String) ≠ "" ∧ ("Work" : String) ∈ ["Personal", "Work"] ∧
    resolveActiveCashbook ["Personal", "Work"] "Work" "Old" = "Work" :=
  ⟨by decide, by decide,
    (resolveCashbook_amended ["Personal", "Work"] "Work" "Old").1 (by decide) (by decide)⟩

/-- Claim C5: a non-empty date filter that matches no entry date forces an
empty filtered list regardless of keyword, and the renderer shows the
empty state with no rows. -/
theorem filter_unmatched_date (s : ViewState) (kwRaw dt : String) (now : Int)
    (hdt : dt ≠ "") (hnone : ∀ e ∈ s.allEntries, e.date ≠ dt) :
    filteredEntries s.allEntries kwRaw dt = [] ∧
    (applyFilters s kwRaw dt now).2.emptyState = true ∧
    (applyFilters s kwRaw dt now).2.rows = [] := by
  have hf : filteredEntries s.allEntries kwRaw dt = [] := by
    unfold filteredEntries filteredByKey
    rw [if_neg hdt]
    apply List.filter_eq_nil_iff.mpr
    intro a ha
    have hmem : a ∈ s.allEntries := by
      by_cases hk : trimLower kwRaw = ""
      · rw [if_pos hk] at ha
        exact ha
      · rw [if_neg hk] at ha
        exact (List.mem_filter.mp ha).1
    simpa using hnone a hmem
  refine ⟨hf, ?_, ?_⟩
  · show (renderEntries (filteredEntries s.allEntries kwRaw dt) s.summary.balance now).emptyState
        = true
    rw [hf]
    rfl
  · show (renderEntries (filteredEntries s.allEntries kwRaw dt) s.summary.balance now).rows = []
    rw [hf]
    rfl

/-- Witness for C5 at a concrete state and date. -/
theorem filter_unmatched_date_witness :
    ("2024-12-31" : String) ≠ "" ∧
    (∀ e ∈ (⟨"u", "Book", [⟨1, "2024-01-01", EntryType.cash_in, 7, "pay"⟩],
        ⟨7, 0, 7⟩⟩ : ViewState).allEntries, e.date ≠ "2024-12-31") ∧
    (filteredEntries (⟨"u", "Book", [⟨1, "2024-01-01", EntryType.cash_in, 7, "pay"⟩],
        ⟨7, 0, 7⟩⟩ : ViewState).allEntries "x" "2024-12-31" = [] ∧
      (applyFilters ⟨"u", "Book", [⟨1, "2024-01-01", EntryType.cash_in, 7, "pay"⟩], ⟨7, 0, 7⟩⟩
          "x" "2024-12-31" 0).2.emptyState = true ∧
      (applyFilters ⟨"u", "Book", [⟨1, "2024-01-01", EntryType.cash_in, 7, "pay"⟩], ⟨7, 0, 7⟩⟩
          "x" "2024-12-31" 0).2.rows = []) :=
  ⟨by decide, by decide,
    filter_unmatched_date ⟨"u", "Book", [⟨1, "2024-01-01", EntryType.cash_in, 7, "pay"⟩],
      ⟨7, 0, 7⟩⟩ "x" "2024-12-31" 0 (by decide) (by decide)⟩

/-- Claim C7: for any input order of the entries dated 2024-01-01,
2024-03-01, 2024-02-01, the renderer emits the rows sorted descending by
date: 2024-03-01, 2024-02-01, 2024-01-01. -/
theorem renderEntries_sorted_desc (l : List Entry) (h : l.Perm sortDemoEntries) :
    (renderEntries l 0 0).rows.map Row.date =
      ["2024-03-01", "2024-02-01", "2024-01-01"] := by
  have hm : l ∈ sortDemoEntries.permutations' := List.mem_permutations'.mpr h
  have hall : ∀ x ∈ sortDemoEntries.permutations',
      (renderEntries x 0 0).rows.map Row.date =
        ["2024-03-01", "2024-02-01", "2024-01-01"] := by decide
  exact hall l hm

/-- Witness for C7 at one concrete input order. -/
theorem renderEntries_sorted_desc_witness :
    ([⟨3, "2024-02-01", EntryType.cash_out, 30, "c"⟩,
      ⟨1, "2024-01-01", EntryType.cash_in, 10, "a"⟩,
      ⟨2, "2024-03-01", EntryType.cash_in, 20, "b"⟩] : List Entry).Perm sortDemoEntries ∧
    (renderEntries [⟨3, "2024-02-01", EntryType.cash_out, 30, "c"⟩,
      ⟨1, "2024-01-01", EntryType.cash_in, 10, "a"⟩,
      ⟨2, "2024-03-01", EntryType.cash_in, 20, "b"⟩] 0 0).rows.map Row.date =
      ["2024-03-01", "2024-02-01", "2024-01-01"] :=
  ⟨List.mem_permutations'.mp (by decide),
    renderEntries_sorted_desc _ (List.mem_permutations'.mp (by decide))⟩

/-- Folding the note accumulator over entries that all share one note key
keeps a single pair and sums the amounts onto it. -/
theorem foldl_bump_const (l : List Entry) (k : String) (s : Nat)
    (h : ∀ e ∈ l, trimLower e.note = k) :
    l.foldl (fun acc e => bump acc (trimLower e.note) e.amount) [(k, s)] =
      [(k, s + (l.map (fun e => e.amount)).sum)] := by
  induction l generalizing s with
  | nil => simp
  | cons e t ih =>
    rw [List.foldl_cons, h e (List.mem_cons_self e t)]
    rw [show bump [(k, s)] k e.amount = [(k, s + e.amount)] from by simp [bump]]
    rw [ih (s + e.amount) (fun x hx => h x (List.mem_cons_of_mem e hx))]
    simp [Nat.add_assoc]

/-- Same, starting from the empty accumulator of a non-empty entry run. -/
theorem foldl_bump_from_nil (l : List Entry) (k : String) (hne : l ≠ [])
    (h : ∀ e ∈ l, trimLower e.note = k) :
    l.foldl (fun acc e => bump acc (trimLower e.note) e.amount) [] =
      [(k, (l.map (fun e => e.amount)).sum)] := by
  cases l with
  | nil => exact absurd rfl hne
  | cons e t =>
    rw [List.foldl_cons, h e (List.mem_cons_self e t)]
    rw [show bump [] k e.amount = [(k, e.amount)] from rfl]
    rw [foldl_bump_const t k e.amount (fun x hx => h x (List.mem_cons_of_mem e hx))]
    simp

/-- Claim C2 counterexample: a single cash-out entry with note "Rent" is
reported under the trimmed lowercased key "rent", not under the original
casing "Rent" the claim requires. -/
theorem topNote_casing_counterexample :
    Insight.topNote "Rent" 40 ∉
        updateInsights [⟨1, "2024-05-01", EntryType.cash_out, 40, "Rent"⟩] 0 0 ∧
    Insight.topNote "rent" 40 ∈
      updateInsights [⟨1, "2024-05-01", EntryType.cash_out, 40, "Rent"⟩] 0 0 := by decide

/-- Claim C2 as amended: when the entry list is non-empty, some cash-out
entry has a non-empty note, and all cash-out entries with a non-empty note
share the one note `n`, the insights contain a top-spending-note message
whose note text is the trimmed lowercased form of `n` and whose amount is
the sum of those entries' amounts. -/
theorem topNote_shared_note (entries : List Entry) (n : String) (balance now : Int)
    (hne : entries ≠ [])
    (hex : ∃ e ∈ entries, e.type = EntryType.cash_out ∧ e.note ≠ "")
    (hall : ∀ e ∈ entries, e.type = EntryType.cash_out → e.note ≠ "" → e.note = n) :
    Insight.topNote (trimLower n)
        (((entries.filter (fun e => e.type == EntryType.cash_out && e.note != "")).map
          (fun e => e.amount)).sum) ∈ updateInsights entries balance now := by
  obtain ⟨e0, he0, ht0, hn0⟩ := hex
  have he0f : e0 ∈ entries.filter (fun e => e.type == EntryType.cash_out && e.note != "") := by
    rw [List.mem_filter]
    exact ⟨he0, by simp [ht0, hn0]⟩
  have hfne : entries.filter (fun e => e.type == EntryType.cash_out && e.note != "") ≠ [] :=
    List.ne_nil_of_mem he0f
  have hkeys : ∀ e ∈ entries.filter (fun e => e.type == EntryType.cash_out && e.note != ""),
      trimLower e.note = trimLower n := by
    intro e he
    obtain ⟨hmem, hp⟩ := List.mem_filter.mp he
    have hp2 : e.type = EntryType.cash_out ∧ e.note ≠ "" := by simpa using hp
    rw [hall e hmem hp2.1 hp2.2]
  have htop : topNotes entries =
      [(trimLower n,
        ((entries.filter (fun e => e.type == EntryType.cash_out && e.note != "")).map
          (fun e => e.amount)).sum)] := by
    unfold topNotes
    exact foldl_bump_from_nil _ _ hfne hkeys
  have htopIns : topNoteInsight entries =
      [Insight.topNote (trimLower n)
        (((entries.filter (fun e => e.type == EntryType.cash_out && e.note != "")).map
          (fun e => e.amount)).sum)] := by
    unfold topNoteInsight
    rw [htop]
    rfl
  have hmemBase : Insight.topNote (trimLower n)
      (((entries.filter (fun e => e.type == EntryType.cash_out && e.note != "")).map
        (fun e => e.amount)).sum) ∈ insightsBase entries balance now := by
    unfold insightsBase
    rw [htopIns]
    simp [List.mem_append]
  unfold updateInsights
  rw [if_neg (fun hI => hne (List.isEmpty_iff.mp hI)),
    if_neg (fun hI => List.ne_nil_of_mem hmemBase (List.isEmpty_iff.mp hI))]
  exact hmemBase

/-- Witness for C2 at a concrete one-entry list with note "Rent". -/
theorem topNote_shared_note_witness :
    ([⟨1, "2024-05-01", EntryType.cash_out, 40, "Rent"⟩] : List Entry) ≠ [] ∧
    (∃ e ∈ ([⟨1, "2024-05-01", EntryType.cash_out, 40, "Rent"⟩] : List Entry),
      e.type = EntryType.cash_out ∧ e.note ≠ "") ∧
    (∀ e ∈ ([⟨1, "2024-05-01", EntryType.cash_out, 40, "Rent"⟩] : List Entry),
      e.type = EntryType.cash_out → e.note ≠ "" → e.note = "Rent") ∧
    Insight.topNote (trimLower "Rent")
        ((([⟨1, "2024-05-01", EntryType.cash_out, 40, "Rent"⟩] : List Entry).filter
          (fun e => e.type == EntryType.cash_out && e.note != "")).map (fun e => e.amount)).sum ∈
      updateInsights [⟨1, "2024-05-01", EntryType.cash_out, 40, "Rent"⟩] 0 0 :=
  ⟨by decide, by decide, by decide,
    topNote_shared_note _ "Rent" 0 0 (by decide) (by decide) (by decide)⟩

/-- Reading back the code point of `Char.ofNat` below the surrogate range. -/
theorem toNat_ofNat_valid (m : Nat) (h : m < 55296) : (Char.ofNat m).toNat = m := by
  have hv : m.isValidChar := Or.inl h
  unfold Char.ofNat
  rw [dif_pos hv]
  rfl

/-- Lowercasing preserves whitespace-ness of a code point. -/
theorem ws_jsToLower (c : Char) : isJSWhitespace (jsToLower c) = isJSWhitespace c := by
  unfold jsToLower
  split
  · next h =>
    rw [Bool.eq_iff_iff]
    unfold isJSWhitespace
    rw [toNat_ofNat_valid (c.toNat + 32) (by omega)]
    simp only [Bool.or_eq_true, beq_iff_eq]
    omega
  · rfl

/-- Composition form of `ws_jsToLower`. -/
theorem ws_comp : isJSWhitespace ∘ jsToLower = isJSWhitespace := funext ws_jsToLower

/-- Lowercasing a code point is idempotent. -/
theorem jsToLower_idem (c : Char) : jsToLower (jsToLower c) = jsToLower c := by
  by_cases hc : 65 ≤ c.toNat ∧ c.toNat ≤ 90
  · have h1 : jsToLower c = Char.ofNat (c.toNat + 32) := by
      unfold jsToLower
      rw [if_pos hc]
    have hx : (Char.ofNat (c.toNat + 32)).toNat = c.toNat + 32 :=
      toNat_ofNat_valid (c.toNat + 32) (by omega)
    rw [h1]
    unfold jsToLower
    rw [if_neg (by rw [hx]; omega)]
  · have h1 : jsToLower c = c := by
      unfold jsToLower
      rw [if_neg hc]
    rw [h1, h1]

/-- Lowercasing a character list is idempotent. -/
theorem lower_map_idem (l : List Char) :
    (l.map jsToLower).map jsToLower = l.map jsToLower := by
  induction l with
  | nil => rfl
  | cons c t ih => simp [jsToLower_idem, ih]

/-- Trimming commutes with lowercasing. -/
theorem trimChars_map_lower (l : List Char) :
    trimChars (l.map jsToLower) = (trimChars l).map jsToLower := by
  unfold trimChars List.rdropWhile
  rw [List.dropWhile_map jsToLower isJSWhitespace l, ws_comp, ← List.map_reverse,
    List.dropWhile_map jsToLower isJSWhitespace _, ws_comp, ← List.map_reverse]

/-- A trimmed list has no leading whitespace left. -/
theorem dropWhile_trimChars (l : List Char) :
    (trimChars l).dropWhile isJSWhitespace = trimChars l := by
  cases hr : trimChars l with
  | nil => rfl
  | cons a as =>
    have hpre : trimChars l <+: l.dropWhile isJSWhitespace := by
      unfold trimChars
      exact List.rdropWhile_prefix _ _
    rw [hr] at hpre
    obtain ⟨t, ht⟩ := hpre
    have hd : l.dropWhile isJSWhitespace = a :: (as ++ t) := by
      rw [← ht]
      rfl
    have hna : isJSWhitespace a = false := by
      have hw := List.head?_dropWhile_not isJSWhitespace l
      rw [hd] at hw
      simpa using hw
    exact List.dropWhile_cons_of_neg (by simp [hna])

/-- Trimming is idempotent. -/
theorem trimChars_idem (l : List Char) : trimChars (trimChars l) = trimChars l := by
  have h1 : trimChars (trimChars l) =
      ((trimChars l).dropWhile isJSWhitespace).rdropWhile isJSWhitespace := rfl
  rw [h1, dropWhile_trimChars]
  show ((l.dropWhile isJSWhitespace).rdropWhile isJSWhitespace).rdropWhile isJSWhitespace
      = trimChars l
  rw [List.rdropWhile_idempotent]
  rfl

/-- An all-whitespace list trims to nothing. -/
theorem all_ws_trim (l : List Char) (h : l.all isJSWhitespace = true) : trimChars l = [] := by
  unfold trimChars
  have h1 : l.dropWhile isJSWhitespace = [] := by
    rw [List.dropWhile_eq_nil_iff]
    intro x hx
    exact List.all_eq_true.mp h x hx
  rw [h1]
  rfl

/-- A whitespace-only keyword normalises to the empty keyword. -/
theorem trimLower_of_all_ws (s : String) (h : s.data.all isJSWhitespace = true) :
    trimLower s = "" := by
  unfold trimLower lowerStr trimStr
  rw [all_ws_trim s.data h]
  rfl

/-- The keyword normalisation of `applyFilters` is idempotent. -/
theorem trimLower_idem (s : String) : trimLower (trimLower s) = trimLower s := by
  show (⟨(trimChars ((trimChars s.data).map jsToLower)).map jsToLower⟩ : String) =
      ⟨(trimChars s.data).map jsToLower⟩
  rw [trimChars_map_lower, trimChars_idem, lower_map_idem]

/-- Claim C10: the filter engine trims (and lowercases) the keyword before
matching — a whitespace-only keyword behaves exactly like the empty
keyword, and any keyword matches the same entries as its trimmed
lowercased form. -/
theorem keyword_trimmed (entries : List Entry) (kw ws dt : String)
    (hws : ws.data.all isJSWhitespace = true) :
    filteredEntries entries ws dt = filteredEntries entries "" dt ∧
    filteredEntries entries kw dt = filteredEntries entries (trimLower kw) dt := by
  constructor
  · unfold filteredEntries
    rw [trimLower_of_all_ws ws hws, show trimLower "" = "" from rfl]
  · unfold filteredEntries
    rw [trimLower_idem]

/-- Witness for C10 with a whitespace keyword and a padded mixed-case one. -/
theorem keyword_trimmed_witness :
    (("  " : String).data.all isJSWhitespace = true) ∧
    (filteredEntries [⟨1, "2024-01-01", EntryType.cash_out, 5, "Coffee"⟩] "  " "" =
        filteredEntries [⟨1, "2024-01-01", EntryType.cash_out, 5, "Coffee"⟩] "" "" ∧
      filteredEntries [⟨1, "2024-01-01", EntryType.cash_out, 5, "Coffee"⟩] " CofFee " "" =
        filteredEntries [⟨1, "2024-01-01", EntryType.cash_out, 5, "Coffee"⟩]
          (trimLower " CofFee ") "") :=
  ⟨by decide, keyword_trimmed [⟨1, "2024-01-01", EntryType.cash_out, 5, "Coffee"⟩]
    " CofFee " "  " "" (by decide)⟩
